import Mathlib

/-!
Verification development for the `finance` repository (src/loan.rs).

Modelling conventions:
* `f64` values are modelled as real numbers (`ℝ`): the spec formulas are
  stated over exact arithmetic, and all numerical claims are about those
  formulas, not about IEEE-754 rounding of intermediate operations.
* `chrono::NaiveDate` is modelled as a year/month/day triple over an
  unbounded integer year (proleptic Gregorian calendar).  `chrono` restricts
  years to ±262143 and returns `None` past that bound; the unbounded model
  makes the date-stepping arithmetic total.
* Rust panics (integer underflow, out-of-bounds vector indexing, the
  explicit date-arithmetic guard) are modelled by the `fatal` constructor of
  `RustResult`.
* The `while` loop of `add_scheduled_pmts` is modelled by structural
  recursion on a fuel counter.  The source loop runs at most 500 iterations
  (`pmt_number < 500` with `pmt_number` incremented every pass), so fuel 500
  reproduces it exactly; fuel insensitivity beyond 500 is proved as the
  termination theorem.
-/

namespace Finance

/-! ### Calendar model (chrono `NaiveDate`, proleptic Gregorian) -/

/-- A calendar date: year (unbounded), month and day (1-based). -/
structure NDate where
  year : ℤ
  month : ℕ
  day : ℕ
deriving DecidableEq, Repr

/-- Proleptic Gregorian leap-year rule, as used by `chrono`. -/
def isLeapYear (y : ℤ) : Bool :=
  y % 4 == 0 && (y % 100 != 0 || y % 400 == 0)

/-- Number of days of month `m` of year `y` (0 for an invalid month index). -/
def daysInMonth (y : ℤ) (m : ℕ) : ℕ :=
  match m with
  | 1 => 31
  | 2 => if isLeapYear y then 29 else 28
  | 3 => 31
  | 4 => 30
  | 5 => 31
  | 6 => 30
  | 7 => 31
  | 8 => 31
  | 9 => 30
  | 10 => 31
  | 11 => 30
  | 12 => 31
  | _ => 0

/-- The dates representable by `chrono::NaiveDate` (ignoring its year bound). -/
def NDate.valid (d : NDate) : Prop :=
  1 ≤ d.month ∧ d.month ≤ 12 ∧ 1 ≤ d.day ∧ d.day ≤ daysInMonth d.year d.month

instance (d : NDate) : Decidable d.valid := by
  unfold NDate.valid; infer_instance

/-- `NaiveDate::from_ymd_opt`: builds a date, `none` when out of range. -/
def from_ymd_opt (y : ℤ) (m d : ℕ) : Option NDate :=
  if 1 ≤ m ∧ m ≤ 12 ∧ 1 ≤ d ∧ d ≤ daysInMonth y m then some ⟨y, m, d⟩ else none

/-- The day after `d` (for valid dates). -/
def nextDay (d : NDate) : NDate :=
  if d.day < daysInMonth d.year d.month then ⟨d.year, d.month, d.day + 1⟩
  else if d.month < 12 then ⟨d.year, d.month + 1, 1⟩
  else ⟨d.year + 1, 1, 1⟩

/-- `NaiveDate::checked_add_days` (total in the unbounded-year model). -/
def checked_add_days (d : NDate) (n : ℕ) : Option NDate :=
  some (Nat.iterate nextDay n d)

/-- `NaiveDate::checked_add_months`: adds `n` months, clamping the day of
month to the length of the target month (total in the unbounded model). -/
def checked_add_months (d : NDate) (n : ℕ) : Option NDate :=
  let m0 : ℤ := (d.month : ℤ) - 1 + n
  let y : ℤ := d.year + m0.fdiv 12
  let m : ℕ := (m0.emod 12).toNat + 1
  some ⟨y, m, min d.day (daysInMonth y m)⟩

/-- Day number of a date (days since 1970-01-01, the Hinnant civil algorithm);
models the day count underlying `chrono` date subtraction. -/
def toEpochDays (d : NDate) : ℤ :=
  let y : ℤ := if d.month ≤ 2 then d.year - 1 else d.year
  let era : ℤ := y.fdiv 400
  let yoe : ℤ := y - era * 400
  let mp : ℤ := ((d.month : ℤ) + 9) % 12
  let doy : ℤ := (153 * mp + 2).fdiv 5 + (d.day : ℤ) - 1
  let doe : ℤ := yoe * 365 + yoe.fdiv 4 - yoe.fdiv 100 + doy
  era * 146097 + doe - 719468

/-- `a.signed_duration_since(b).num_days()`: calendar days from `b` to `a`. -/
def daysBetween (a b : NDate) : ℤ :=
  toEpochDays a - toEpochDays b

/-! ### Data model (`PmtSchedule`, `Compounding`, `LoanPayment`) -/

/-- Payment frequency selector (`PmtSchedule` in loan.rs). -/
inductive PmtSchedule where
  | Weekly
  | Biweekly
  | SemiMonthly
  | Monthly
  | Quarterly
  | SemiAnnually
  | Annually
deriving DecidableEq, Repr

/-- Compounding frequency selector (`Compounding` in loan.rs). -/
inductive Compounding where
  | Daily
  | Monthly
  | Quarterly
  | SemiAnnually
  | Annually
deriving DecidableEq, Repr

/-- `get_compounding_periods`: compounding periods per year. -/
def get_compounding_periods (compound_type : Compounding) : ℝ :=
  match compound_type with
  | .Daily => 365
  | .Monthly => 12
  | .Quarterly => 4
  | .SemiAnnually => 2
  | .Annually => 1

/-- `get_pmt_schedule`: payments per year. -/
def get_pmt_schedule (pmt_schedule : PmtSchedule) : ℝ :=
  match pmt_schedule with
  | .Weekly => 52
  | .Biweekly => 26
  | .SemiMonthly => 24
  | .Monthly => 12
  | .Quarterly => 4
  | .SemiAnnually => 2
  | .Annually => 1

/-- One scheduled payment (`LoanPayment` in loan.rs).  `pmt_number` is the
1-based sequence number (an `i32` in the source, always small and
positive here). -/
structure LoanPayment where
  pmt_number : ℕ
  pmt_date : NDate
  pmt_amount : ℝ
  pmt_interest_paid : ℝ
  pmt_end_balance : ℝ

/-! ### Rounding (`round` in loan.rs) -/

/-- Round-half-away-from-zero to an integer, the behaviour of `f64::round`. -/
noncomputable def roundAway (x : ℝ) : ℤ :=
  if 0 ≤ x then ⌊x + 1 / 2⌋ else -⌊-x + 1 / 2⌋

/-- `round(amt, dec)` from loan.rs: scale by `10^dec`, `f64::round`, unscale;
an amount of exactly zero is returned as zero without scaling. -/
noncomputable def round (amt dec : ℝ) : ℝ :=
  if amt = 0 then 0
  else (roundAway (amt * (10 : ℝ) ^ dec) : ℝ) / (10 : ℝ) ^ dec

/-! ### Payment amount solver (`get_pmt_amount` in loan.rs) -/

/-- `get_pmt_amount`: the level payment via the annuity formula, rounded to
`dec_places` digits. -/
noncomputable def get_pmt_amount (principal term annual_rate : ℝ)
    (pmt_schedule : PmtSchedule) (compound_type : Compounding)
    (dec_places : ℝ) : ℝ :=
  let compounding_periods := get_compounding_periods compound_type
  let pmt_count := get_pmt_schedule pmt_schedule
  let pmt_rate :=
    (1 + annual_rate / 100 / compounding_periods) ^ (compounding_periods / pmt_count) - 1
  let total_pmts := term * pmt_count
  let factor := (1 + pmt_rate) ^ total_pmts
  round (principal * pmt_rate * factor / (factor - 1)) dec_places

/-! ### Spec-side definitions (written from the words of the specification,
for the refinement claims) -/

/-- Round-half-away-from-zero at `d` decimal digits, as the spec words it
(§4.2): no special case for zero. -/
noncomputable def spec_round (x d : ℝ) : ℝ :=
  (roundAway (x * (10 : ℝ) ^ d) : ℝ) / (10 : ℝ) ^ d

/-- Payment amount as §4.1/§4.2 word it: `rate = (1 + (r/100)/c)^(c/p) − 1`,
`factor = (1+rate)^(t·p)`, payment `= round(P·rate·factor/(factor−1), d)`
half-away-from-zero at `d` digits. -/
noncomputable def spec_pmt_amount (P t r p c d : ℝ) : ℝ :=
  let rate := (1 + r / 100 / c) ^ (c / p) - 1
  let factor := (1 + rate) ^ (t * p)
  spec_round (P * rate * factor / (factor - 1)) d

/-! ### Date stepping (`get_next_pmt_date` in loan.rs) -/

/-- `get_next_pmt_date`: next payment date after `begin_date` under the given
payment frequency.  The source ends with
`match end_date { Some(d) => d, None => panic }`; the `none` result here
models that final panicking arm. -/
def get_next_pmt_date (begin_date : NDate) (pmt_schedule : PmtSchedule) :
    Option NDate :=
  let day := begin_date.day
  let mon := begin_date.month
  let yr := begin_date.year
  match pmt_schedule with
  | .Weekly => checked_add_days begin_date 7
  | .Biweekly => checked_add_days begin_date 14
  | .SemiMonthly =>
      if day = 1 then from_ymd_opt yr mon 15
      else if mon = 12 then from_ymd_opt (yr + 1) 1 1
      else from_ymd_opt yr (mon + 1) 1
  | .Monthly => checked_add_months begin_date 1
  | .Quarterly => checked_add_months begin_date 3
  | .SemiAnnually => checked_add_months begin_date 6
  | .Annually => checked_add_months begin_date 12

/-! ### Schedule generator (`add_scheduled_pmts` in loan.rs) -/

/-- The mutable locals of the `add_scheduled_pmts` loop. -/
structure SchedState where
  begin_date : NDate
  end_date : NDate
  begin_balance : ℝ
  end_balance : ℝ
  pmt_amt : ℝ
  pmt_number : ℕ
  period_interest_rate : ℝ

/-- The `common_rates` HashMap: period interest rates precomputed for the
common durations 28, 29, 30 and 31 days, each as `(1+daily_rate)^i − 1`. -/
noncomputable def common_rates (daily_rate : ℝ) : List (ℤ × ℝ) :=
  [28, 29, 30, 31].map fun i => ((i : ℤ), (1 + daily_rate) ^ (i : ℤ) - 1)

/-- Daily-compounding rate for a period of `days` days:
`common_rates.get(&days).copied().unwrap_or((1.+daily_rate).powi(days)-1.)`. -/
noncomputable def daily_period_rate (daily_rate : ℝ) (days : ℤ) : ℝ :=
  ((common_rates daily_rate).lookup days).getD ((1 + daily_rate) ^ days - 1)

/-- The value of `period_interest_rate` after the pre-loop preamble of
`add_scheduled_pmts` (initialised to 0, overwritten for non-daily
compounding). -/
noncomputable def init_period_rate (annual_rate : ℝ) (pmt_frequency compounding_periods : ℝ) : ℝ :=
  let daily_rate := annual_rate / 100 / compounding_periods
  if compounding_periods = 365 then 0
  else if pmt_frequency = compounding_periods then daily_rate
  else (1 + daily_rate) ^ (compounding_periods / pmt_frequency) - 1

/-- `begin_date` as rolled at the top of a loop iteration: kept on the first
pass, otherwise the end date of the previous period. -/
def stepBeginDate (s : SchedState) : NDate :=
  if s.pmt_number = 0 then s.begin_date else s.end_date

/-- `end_date` as rolled at the top of a loop iteration: kept on the first
pass, otherwise `get_next_pmt_date(begin_date)`.  The `getD` fallback covers
the panicking arm of `get_next_pmt_date`, which is unreachable for
chrono-representable dates (`get_next_pmt_date_isSome_of_valid`). -/
def stepEndDate (pmt_schedule : PmtSchedule) (s : SchedState) : NDate :=
  if s.pmt_number = 0 then s.end_date
  else (get_next_pmt_date s.end_date pmt_schedule).getD s.end_date

/-- `begin_balance` as rolled at the top of a loop iteration: kept on the
first pass, otherwise the closing balance of the previous period. -/
def stepBeginBalance (s : SchedState) : ℝ :=
  if s.pmt_number = 0 then s.begin_balance else s.end_balance

/-- The `period_interest_rate` applied during a loop iteration: under daily
compounding (365 periods/yr) the day-count-driven rate, otherwise the value
carried in the state (set once before the loop). -/
noncomputable def stepRate (pmt_schedule : PmtSchedule)
    (compounding_periods daily_rate : ℝ) (s : SchedState) : ℝ :=
  if compounding_periods = 365 then
    daily_period_rate daily_rate
      (daysBetween (stepEndDate pmt_schedule s) (stepBeginDate s))
  else s.period_interest_rate

/-- `interest = begin_balance * period_interest_rate` for a loop iteration. -/
noncomputable def stepInterest (pmt_schedule : PmtSchedule)
    (compounding_periods daily_rate : ℝ) (s : SchedState) : ℝ :=
  stepBeginBalance s * stepRate pmt_schedule compounding_periods daily_rate s

/-- One iteration of the `while` loop of `add_scheduled_pmts`: roll the
period window (except on the first pass), pick the period rate (day-count
lookup under daily compounding, the pre-loop rate otherwise), accrue
interest, amortize or resize-and-retire, and emit the rounded record. -/
noncomputable def schedStep (pmt_schedule : PmtSchedule)
    (compounding_periods daily_rate dec_places : ℝ) (s : SchedState) :
    SchedState × LoanPayment :=
  (⟨stepBeginDate s, stepEndDate pmt_schedule s, stepBeginBalance s,
      (if s.pmt_amt ≤ stepBeginBalance s then
        stepBeginBalance s
          - (s.pmt_amt - stepInterest pmt_schedule compounding_periods daily_rate s)
      else 0),
      (if s.pmt_amt ≤ stepBeginBalance s then s.pmt_amt
      else stepBeginBalance s + stepInterest pmt_schedule compounding_periods daily_rate s),
      s.pmt_number + 1,
      stepRate pmt_schedule compounding_periods daily_rate s⟩,
   ⟨s.pmt_number + 1, stepEndDate pmt_schedule s,
      round (if s.pmt_amt ≤ stepBeginBalance s then s.pmt_amt
        else stepBeginBalance s + stepInterest pmt_schedule compounding_periods daily_rate s)
        dec_places,
      round (stepInterest pmt_schedule compounding_periods daily_rate s) dec_places,
      round (if s.pmt_amt ≤ stepBeginBalance s then
          stepBeginBalance s
            - (s.pmt_amt - stepInterest pmt_schedule compounding_periods daily_rate s)
        else 0) dec_places⟩)

/-- The `while end_balance > 0. && pmt_number < 500` loop, by recursion on a
fuel counter. -/
noncomputable def schedLoop (pmt_schedule : PmtSchedule)
    (compounding_periods daily_rate dec_places : ℝ) :
    ℕ → SchedState → List LoanPayment
  | 0, _ => []
  | fuel + 1, s =>
      if s.end_balance > 0 ∧ s.pmt_number < 500 then
        (schedStep pmt_schedule compounding_periods daily_rate dec_places s).2 ::
          schedLoop pmt_schedule compounding_periods daily_rate dec_places fuel
            (schedStep pmt_schedule compounding_periods daily_rate dec_places s).1
      else []

/-- `add_scheduled_pmts`: the vector of scheduled payments.  Fuel 500 is
exact: the loop body runs at most 500 times (`schedLoop_fuel_ge`). -/
noncomputable def add_scheduled_pmts (principal : ℝ)
    (loan_date first_pmt_date : NDate) (annual_rate : ℝ)
    (pmt_schedule : PmtSchedule) (compound_type : Compounding)
    (dec_places : ℝ) (pmt_amount : ℝ) : List LoanPayment :=
  let compounding_periods := get_compounding_periods compound_type
  let pmt_frequency := get_pmt_schedule pmt_schedule
  let daily_rate := annual_rate / 100 / compounding_periods
  schedLoop pmt_schedule compounding_periods daily_rate dec_places 500
    ⟨loan_date, first_pmt_date, principal, 1, pmt_amount, 0,
      init_period_rate annual_rate pmt_frequency compounding_periods⟩

/-! ### `Loan` and its accessors -/

/-- The `Loan` struct. -/
structure Loan where
  principal : ℝ
  term : ℝ
  annual_rate : ℝ
  pmt_schedule : PmtSchedule
  compound_type : Compounding
  loan_date : NDate
  first_pmt_date : NDate
  dec_places : ℝ
  pmt_amount : ℝ
  scheduled_pmts : List LoanPayment
  actual_pmts : List LoanPayment

/-- `Loan::new`: eagerly computes the level payment and the schedule. -/
noncomputable def Loan.new (principal term annual_rate : ℝ)
    (pmt_schedule : PmtSchedule) (compound_type : Compounding)
    (loan_date first_pmt_date : NDate) (dec_places : ℝ) : Loan :=
  let pmt_amount :=
    get_pmt_amount principal term annual_rate pmt_schedule compound_type dec_places
  { principal := principal
    term := term
    annual_rate := annual_rate
    pmt_schedule := pmt_schedule
    compound_type := compound_type
    loan_date := loan_date
    first_pmt_date := first_pmt_date
    dec_places := dec_places
    pmt_amount := pmt_amount
    scheduled_pmts :=
      add_scheduled_pmts principal loan_date first_pmt_date annual_rate
        pmt_schedule compound_type dec_places pmt_amount
    actual_pmts := [] }

/-- Outcome of a Rust computation that may abort: `fatal` models a panic
(integer underflow in debug builds, out-of-bounds vector indexing). -/
inductive RustResult (α : Type) where
  | fatal : RustResult α
  | ok : α → RustResult α
deriving DecidableEq, Repr

/-- `usize` subtraction: aborts on underflow (directly in debug builds; in
release builds it wraps to `2^64−1` and the subsequent vector index aborts,
so the observable outcome is the same). -/
def usizeSub (a b : ℕ) : RustResult ℕ :=
  if b ≤ a then .ok (a - b) else .fatal

/-- `Vec` indexing `v[i]`: aborts when `i` is out of bounds. -/
def vecIndex {α : Type} (v : List α) (i : ℕ) : RustResult α :=
  match v.get? i with
  | some a => .ok a
  | none => .fatal

/-- Result of `Loan::get_pmt_info`.  `rendered p` stands for the Display
string of the record `p` (the float formatting itself is not modelled);
`noInfo` stands for the exact string returned on the other branch,
namely the text: No payment information. -/
inductive PmtInfo where
  | rendered : LoanPayment → PmtInfo
  | noInfo : PmtInfo

/-- `Loan::get_pmt_amount` (the accessor method). -/
def Loan.get_pmt_amount (l : Loan) : ℝ :=
  l.pmt_amount

/-- `Loan::get_pmt_count`. -/
def Loan.get_pmt_count (l : Loan) : ℕ :=
  l.scheduled_pmts.length

/-- `Loan::get_pmt_info`: if `pmt_number <= count` render
`scheduled_pmts[pmt_number - 1]`, else the no-information string. -/
def Loan.get_pmt_info (l : Loan) (pmt_number : ℕ) : RustResult PmtInfo :=
  if pmt_number ≤ l.get_pmt_count then
    match usizeSub pmt_number 1 with
    | .fatal => .fatal
    | .ok i =>
        match vecIndex l.scheduled_pmts i with
        | .fatal => .fatal
        | .ok p => .ok (.rendered p)
  else .ok .noInfo

/-- `Loan::get_pmt_detail`: if `pmt_number <= count` return
`Some(&scheduled_pmts[pmt_number])`, else `None`. -/
def Loan.get_pmt_detail (l : Loan) (pmt_number : ℕ) :
    RustResult (Option LoanPayment) :=
  if pmt_number ≤ l.get_pmt_count then
    match vecIndex l.scheduled_pmts pmt_number with
    | .fatal => .fatal
    | .ok p => .ok (some p)
  else .ok none

/-! ### Basic facts about the rounding function -/

theorem roundAway_intCast (k : ℤ) : roundAway (k : ℝ) = k := by
  unfold roundAway
  split
  · rw [Int.floor_int_add]
    norm_num
  · rw [show -(k : ℝ) = ((-k : ℤ) : ℝ) by push_cast; ring, Int.floor_int_add]
    norm_num

theorem abs_roundAway_sub_le (x : ℝ) : |(roundAway x : ℝ) - x| ≤ 1 / 2 := by
  unfold roundAway
  rcases le_or_lt 0 x with h | h
  · rw [if_pos h, abs_le]
    have h1 : (⌊x + 1 / 2⌋ : ℝ) ≤ x + 1 / 2 := Int.floor_le _
    have h2 : x + 1 / 2 - 1 < ⌊x + 1 / 2⌋ := Int.sub_one_lt_floor _
    constructor <;> linarith
  · rw [if_neg (not_le.mpr h), abs_le]
    have h1 : (⌊-x + 1 / 2⌋ : ℝ) ≤ -x + 1 / 2 := Int.floor_le _
    have h2 : -x + 1 / 2 - 1 < ⌊-x + 1 / 2⌋ := Int.sub_one_lt_floor _
    push_cast
    constructor <;> linarith

theorem rpow_ten_pos (d : ℝ) : 0 < (10 : ℝ) ^ d :=
  Real.rpow_pos_of_pos (by norm_num) d

theorem round_zero (d : ℝ) : round 0 d = 0 :=
  if_pos rfl

/-- The `round` of the source agrees with the plain spec
round-half-away-from-zero at `d` digits (the `amt == 0` special case is
absorbed: rounding zero gives zero anyway). -/
theorem round_eq_spec_round (x d : ℝ) : round x d = spec_round x d := by
  by_cases hx : x = 0
  · rw [hx, round_zero, spec_round]
    rw [show (0 : ℝ) * (10 : ℝ) ^ d = ((0 : ℤ) : ℝ) by push_cast; ring,
      roundAway_intCast]
    simp
  · rw [round, if_neg hx, spec_round]

theorem abs_round_sub_le (x d : ℝ) : |round x d - x| ≤ 1 / 2 / (10 : ℝ) ^ d := by
  have hp : (0 : ℝ) < (10 : ℝ) ^ d := rpow_ten_pos d
  rw [round_eq_spec_round, spec_round]
  have key : (roundAway (x * (10 : ℝ) ^ d) : ℝ) / (10 : ℝ) ^ d - x
      = ((roundAway (x * (10 : ℝ) ^ d) : ℝ) - x * (10 : ℝ) ^ d) / (10 : ℝ) ^ d := by
    field_simp
    ring
  rw [key, abs_div, abs_of_pos hp]
  gcongr
  exact abs_roundAway_sub_le _

/-- `round` is idempotent: re-rounding an already rounded amount at the same
precision changes nothing. -/
theorem round_round (x d : ℝ) : round (round x d) d = round x d := by
  have hp : (0 : ℝ) < (10 : ℝ) ^ d := rpow_ten_pos d
  by_cases hk : round x d = 0
  · rw [hk, round_zero]
  · rw [round, if_neg hk]
    by_cases hx : x = 0
    · exact absurd (hx ▸ round_zero d) hk
    · rw [round, if_neg hx]
      rw [show (roundAway (x * (10 : ℝ) ^ d) : ℝ) / (10 : ℝ) ^ d * (10 : ℝ) ^ d
          = (roundAway (x * (10 : ℝ) ^ d) : ℝ) by field_simp]
      rw [roundAway_intCast]

/-! ### C3: the payment-amount formula -/

/-- C3: for every principal, term, rate, payment frequency, compounding
frequency and precision, `get_pmt_amount` returns exactly the annuity
formula `round(P·rate·factor/(factor−1), d)` with
`rate = (1+(r/100)/c)^(c/p) − 1` and `factor = (1+rate)^(t·p)`, rounded
half-away-from-zero at `d` digits; and rounding an amount of exactly zero
yields exactly zero. -/
theorem c3_pmt_amount_formula :
    (∀ (P t r : ℝ) (ps : PmtSchedule) (ct : Compounding) (d : ℝ),
        get_pmt_amount P t r ps ct d
          = spec_pmt_amount P t r (get_pmt_schedule ps) (get_compounding_periods ct) d)
    ∧ (∀ d : ℝ, round 0 d = 0) := by
  constructor
  · intro P t r ps ct d
    unfold get_pmt_amount spec_pmt_amount
    exact round_eq_spec_round _ _
  · exact round_zero

/-! ### C9: the date-stepping table -/

theorem one_le_daysInMonth (y : ℤ) (m : ℕ) (h1 : 1 ≤ m) (h2 : m ≤ 12) :
    1 ≤ daysInMonth y m := by
  unfold daysInMonth
  interval_cases m <;> simp <;> split <;> norm_num

theorem fifteen_le_daysInMonth (y : ℤ) (m : ℕ) (h1 : 1 ≤ m) (h2 : m ≤ 12) :
    15 ≤ daysInMonth y m := by
  unfold daysInMonth
  interval_cases m <;> simp <;> split <;> norm_num

/-- For a chrono-representable date, `get_next_pmt_date` never reaches its
panicking arm. -/
theorem get_next_pmt_date_isSome_of_valid (d : NDate) (ps : PmtSchedule)
    (h : d.valid) : (get_next_pmt_date d ps).isSome := by
  obtain ⟨h1, h2, _, _⟩ := h
  cases ps <;>
    simp only [get_next_pmt_date, checked_add_days, checked_add_months,
      Option.isSome_some]
  by_cases hd : d.day = 1
  · rw [if_pos hd, from_ymd_opt,
      if_pos ⟨h1, h2, by norm_num, fifteen_le_daysInMonth d.year d.month h1 h2⟩]
    simp
  · rw [if_neg hd]
    by_cases hm : d.month = 12
    · rw [if_pos hm, from_ymd_opt,
        if_pos ⟨le_refl 1, by norm_num, le_refl 1,
          one_le_daysInMonth (d.year + 1) 1 (by norm_num) (by norm_num)⟩]
      simp
    · rw [if_neg hm, from_ymd_opt,
        if_pos ⟨by omega, by omega, le_refl 1,
          one_le_daysInMonth d.year (d.month + 1) (by omega) (by omega)⟩]
      simp

/-- C9: `get_next_pmt_date` follows the per-frequency table — Weekly adds 7
days, Biweekly 14; SemiMonthly maps day 1 to the 15th of the same month and
any other day to the 1st of the next month with December rolling to January;
Monthly/Quarterly/SemiAnnually/Annually add 1/3/6/12 calendar months with
month-end clamping — including the concrete round-trip examples of the spec. -/
theorem c9_next_pmt_date :
    (∀ d : NDate, get_next_pmt_date d .Weekly = checked_add_days d 7)
    ∧ (∀ d : NDate, get_next_pmt_date d .Biweekly = checked_add_days d 14)
    ∧ (∀ d : NDate, d.valid → d.day = 1 →
        get_next_pmt_date d .SemiMonthly = some ⟨d.year, d.month, 15⟩)
    ∧ (∀ d : NDate, d.valid → d.day ≠ 1 → d.month = 12 →
        get_next_pmt_date d .SemiMonthly = some ⟨d.year + 1, 1, 1⟩)
    ∧ (∀ d : NDate, d.valid → d.day ≠ 1 → d.month ≠ 12 →
        get_next_pmt_date d .SemiMonthly = some ⟨d.year, d.month + 1, 1⟩)
    ∧ (∀ d : NDate, get_next_pmt_date d .Monthly = checked_add_months d 1)
    ∧ (∀ d : NDate, get_next_pmt_date d .Quarterly = checked_add_months d 3)
    ∧ (∀ d : NDate, get_next_pmt_date d .SemiAnnually = checked_add_months d 6)
    ∧ (∀ d : NDate, get_next_pmt_date d .Annually = checked_add_months d 12)
    ∧ get_next_pmt_date ⟨2024, 2, 1⟩ .Weekly = some ⟨2024, 2, 8⟩
    ∧ get_next_pmt_date ⟨2024, 2, 1⟩ .Biweekly = some ⟨2024, 2, 15⟩
    ∧ get_next_pmt_date ⟨2024, 2, 1⟩ .SemiMonthly = some ⟨2024, 2, 15⟩
    ∧ get_next_pmt_date ⟨2024, 2, 1⟩ .Monthly = some ⟨2024, 3, 1⟩
    ∧ get_next_pmt_date ⟨2023, 12, 15⟩ .SemiMonthly = some ⟨2024, 1, 1⟩
    ∧ get_next_pmt_date ⟨2022, 8, 30⟩ .SemiAnnually = some ⟨2023, 2, 28⟩
    ∧ get_next_pmt_date ⟨2022, 11, 30⟩ .Quarterly = some ⟨2023, 2, 28⟩ := by
  refine ⟨fun d => rfl, fun d => rfl, ?_, ?_, ?_, fun d => rfl, fun d => rfl,
    fun d => rfl, fun d => rfl, by decide, by decide, by decide, by decide,
    by decide, by decide, by decide⟩
  · intro d hv hd
    obtain ⟨h1, h2, _, _⟩ := hv
    simp only [get_next_pmt_date, if_pos hd]
    rw [from_ymd_opt,
      if_pos ⟨h1, h2, by norm_num, fifteen_le_daysInMonth d.year d.month h1 h2⟩]
  · intro d hv hd hm
    simp only [get_next_pmt_date, if_neg hd, if_pos hm]
    rw [from_ymd_opt,
      if_pos ⟨le_refl 1, by norm_num, le_refl 1,
        one_le_daysInMonth (d.year + 1) 1 (by norm_num) (by norm_num)⟩]
  · intro d hv hd hm
    obtain ⟨h1, h2, _, _⟩ := hv
    simp only [get_next_pmt_date, if_neg hd, if_neg hm]
    rw [from_ymd_opt,
      if_pos ⟨by omega, by omega, le_refl 1,
        one_le_daysInMonth d.year (d.month + 1) (by omega) (by omega)⟩]

/-- Witness for C9 at a concrete valid date with day-of-month 1. -/
theorem c9_next_pmt_date_witness :
    NDate.valid ⟨2024, 4, 1⟩ ∧ (NDate.mk 2024 4 1).day = 1
      ∧ get_next_pmt_date ⟨2024, 4, 1⟩ .SemiMonthly = some ⟨2024, 4, 15⟩ :=
  ⟨by decide, rfl, c9_next_pmt_date.2.2.1 ⟨2024, 4, 1⟩ (by decide) rfl⟩

/-! ### Loop lemmas for the schedule generator -/

theorem schedStep_fst_pmt_number (ps : PmtSchedule) (cper dr dec : ℝ)
    (s : SchedState) :
    (schedStep ps cper dr dec s).1.pmt_number = s.pmt_number + 1 :=
  rfl

/-- The loop body runs at most `fuel` times. -/
theorem schedLoop_length_le (ps : PmtSchedule) (cper dr dec : ℝ) :
    ∀ (fuel : ℕ) (s : SchedState),
      (schedLoop ps cper dr dec fuel s).length ≤ fuel
  | 0, _ => le_refl 0
  | fuel + 1, s => by
      rw [schedLoop]
      split
      · simpa using Nat.succ_le_succ (schedLoop_length_le ps cper dr dec fuel _)
      · simp

/-- Any fuel that covers the remaining `500 − pmt_number` iterations gives
the same result: the loop terminates within the cap. -/
theorem schedLoop_fuel_ge (ps : PmtSchedule) (cper dr dec : ℝ) :
    ∀ (f1 f2 : ℕ) (s : SchedState),
      500 ≤ s.pmt_number + f1 → 500 ≤ s.pmt_number + f2 →
      schedLoop ps cper dr dec f1 s = schedLoop ps cper dr dec f2 s
  | 0, 0, s => fun _ _ => rfl
  | 0, f2 + 1, s => by
      intro h1 _
      rw [schedLoop, schedLoop, if_neg]
      rintro ⟨-, hlt⟩
      omega
  | f1 + 1, 0, s => by
      intro _ h2
      rw [schedLoop, schedLoop, if_neg]
      rintro ⟨-, hlt⟩
      omega
  | f1 + 1, f2 + 1, s => by
      intro h1 h2
      rw [schedLoop, schedLoop]
      by_cases hc : s.end_balance > 0 ∧ s.pmt_number < 500
      · rw [if_pos hc, if_pos hc]
        rw [schedLoop_fuel_ge ps cper dr dec f1 f2
            (schedStep ps cper dr dec s).1
            (by rw [schedStep_fst_pmt_number]; omega)
            (by rw [schedStep_fst_pmt_number]; omega)]
      · rw [if_neg hc, if_neg hc]

/-- Once the closing balance is zero (or the loop guard fails generally),
no further record is emitted. -/
theorem schedLoop_eq_nil (ps : PmtSchedule) (cper dr dec : ℝ) (fuel : ℕ)
    (s : SchedState) (h : s.end_balance = 0) :
    schedLoop ps cper dr dec fuel s = [] := by
  cases fuel with
  | zero => rfl
  | succ fuel =>
      rw [schedLoop, if_neg]
      rintro ⟨h1, -⟩
      rw [h] at h1
      exact lt_irrefl 0 h1

/-! ### C6: termination and the 500-record cap -/

/-- C6: for every input, schedule generation terminates — adding fuel beyond
the modelled 500 iterations changes nothing — and the returned vector always
holds at least 1 and at most 500 records; hitting the cap is not an error
(the function totally returns the partial sequence). -/
theorem c6_termination_cap (P : ℝ) (ld fpd : NDate) (r : ℝ)
    (ps : PmtSchedule) (ct : Compounding) (dec pa : ℝ) :
    1 ≤ (add_scheduled_pmts P ld fpd r ps ct dec pa).length
    ∧ (add_scheduled_pmts P ld fpd r ps ct dec pa).length ≤ 500
    ∧ ∀ extra : ℕ,
        schedLoop ps (get_compounding_periods ct)
          (r / 100 / get_compounding_periods ct) dec (500 + extra)
          ⟨ld, fpd, P, 1, pa, 0,
            init_period_rate r (get_pmt_schedule ps) (get_compounding_periods ct)⟩
        = add_scheduled_pmts P ld fpd r ps ct dec pa := by
  refine ⟨?_, ?_, ?_⟩
  · show 1 ≤ (schedLoop _ _ _ _ 500 _).length
    rw [show (500 : ℕ) = 499 + 1 from rfl, schedLoop,
      if_pos (⟨by norm_num, by norm_num⟩ :
        (1 : ℝ) > 0 ∧ (0 : ℕ) < 500)]
    simp
  · exact schedLoop_length_le _ _ _ _ 500 _
  · intro extra
    exact schedLoop_fuel_ge ps _ _ dec (500 + extra) 500 _ (by omega) (by omega)

/-! ### C7: the fixed pre-loop period rate for non-daily compounding -/

/-- C7: for non-daily compounding the single period rate computed before the
loop equals the §4.1 formula `(1+(r/100)/c)^(c/p) − 1` — also in the
special-cased branch `p = c`, where the source short-circuits to
`daily_rate` — and every loop iteration reuses the rate in the state unchanged,
so the schedule generator and the payment-amount solver use the same
periodic rate. -/
theorem c7_fixed_period_rate (r : ℝ) (ps : PmtSchedule) (ct : Compounding)
    (h : ct ≠ .Daily) :
    init_period_rate r (get_pmt_schedule ps) (get_compounding_periods ct)
      = (1 + r / 100 / get_compounding_periods ct)
          ^ (get_compounding_periods ct / get_pmt_schedule ps) - 1
    ∧ ∀ (dr dec : ℝ) (s : SchedState),
        (schedStep ps (get_compounding_periods ct) dr dec s).1.period_interest_rate
          = s.period_interest_rate := by
  have hc365 : get_compounding_periods ct ≠ 365 := by
    cases ct with
    | Daily => exact absurd rfl h
    | _ => norm_num [get_compounding_periods]
  have hc0 : get_compounding_periods ct ≠ 0 := by
    cases ct <;> norm_num [get_compounding_periods]
  constructor
  · unfold init_period_rate
    rw [if_neg hc365]
    by_cases hpc : get_pmt_schedule ps = get_compounding_periods ct
    · rw [if_pos hpc, hpc, div_self hc0, Real.rpow_one]
      ring
    · rw [if_neg hpc]
  · intro dr dec s
    show stepRate ps (get_compounding_periods ct) dr s = s.period_interest_rate
    rw [stepRate, if_neg hc365]

/-- Witness for C7 with monthly compounding and quarterly payments, and one
with the special-cased branch `p = c` (monthly/monthly). -/
theorem c7_fixed_period_rate_witness :
    Compounding.Monthly ≠ Compounding.Daily
    ∧ init_period_rate 7 (get_pmt_schedule .Quarterly) (get_compounding_periods .Monthly)
        = (1 + 7 / 100 / get_compounding_periods .Monthly)
            ^ (get_compounding_periods .Monthly / get_pmt_schedule .Quarterly) - 1
    ∧ init_period_rate 7 (get_pmt_schedule .Monthly) (get_compounding_periods .Monthly)
        = (1 + 7 / 100 / get_compounding_periods .Monthly)
            ^ (get_compounding_periods .Monthly / get_pmt_schedule .Monthly) - 1
    ∧ (schedStep .Quarterly (get_compounding_periods .Monthly) (1 / 100) 2
          ⟨⟨2024, 1, 1⟩, ⟨2024, 2, 1⟩, 100, 1, 10, 0, 1 / 200⟩).1.period_interest_rate
        = 1 / 200 :=
  ⟨by decide,
   (c7_fixed_period_rate 7 .Quarterly .Monthly (by decide)).1,
   (c7_fixed_period_rate 7 .Monthly .Monthly (by decide)).1,
   (c7_fixed_period_rate 7 .Quarterly .Monthly (by decide)).2 (1 / 100) 2
     ⟨⟨2024, 1, 1⟩, ⟨2024, 2, 1⟩, 100, 1, 10, 0, 1 / 200⟩⟩

/-! ### C8: daily compounding, cached and on-demand day-count rates -/

/-- The cache-or-compute construct always produces the on-demand formula. -/
theorem daily_period_rate_eq (dr : ℝ) (days : ℤ) :
    daily_period_rate dr days = (1 + dr) ^ days - 1 := by
  unfold daily_period_rate common_rates
  by_cases h28 : days = (28 : ℤ)
  · simp [List.lookup, h28]
  · by_cases h29 : days = (29 : ℤ)
    · simp [List.lookup, h29]
    · by_cases h30 : days = (30 : ℤ)
      · simp [List.lookup, h30]
      · by_cases h31 : days = (31 : ℤ)
        · simp [List.lookup, h31]
        · have e28 : (days == (28 : ℤ)) = false := beq_eq_false_iff_ne.mpr h28
          have e29 : (days == (29 : ℤ)) = false := beq_eq_false_iff_ne.mpr h29
          have e30 : (days == (30 : ℤ)) = false := beq_eq_false_iff_ne.mpr h30
          have e31 : (days == (31 : ℤ)) = false := beq_eq_false_iff_ne.mpr h31
          simp [List.lookup, e28, e29, e30, e31]

/-- C8: under daily compounding the rate applied to a period of `d` days is
`(1+daily_rate)^d − 1` with `daily_rate = (r/100)/365`, whether or not `d`
lies in the precomputed cache {28, 29, 30, 31}; the cached entries hold
exactly the on-demand value, and each loop iteration applies that rate to
its actual day count. -/
theorem c8_daily_rate_cache :
    (∀ (r : ℝ) (days : ℤ),
        daily_period_rate (r / 100 / 365) days = (1 + r / 100 / 365) ^ days - 1)
    ∧ (∀ (dr : ℝ) (days : ℤ), days ∈ ([28, 29, 30, 31] : List ℤ) →
        (common_rates dr).lookup days = some ((1 + dr) ^ days - 1))
    ∧ ∀ (ps : PmtSchedule) (dr dec : ℝ) (s : SchedState),
        (schedStep ps 365 dr dec s).1.period_interest_rate
          = (1 + dr) ^ (daysBetween (stepEndDate ps s) (stepBeginDate s)) - 1 := by
  refine ⟨fun r days => daily_period_rate_eq _ _, ?_, ?_⟩
  · intro dr days h
    fin_cases h <;> simp [common_rates, List.lookup]
  · intro ps dr dec s
    show stepRate ps 365 dr s = _
    rw [stepRate, if_pos rfl]
    exact daily_period_rate_eq _ _

/-- Witness for C8 at a cached day count (30) and an uncached one (91). -/
theorem c8_daily_rate_cache_witness :
    daily_period_rate (7 / 100 / 365) 30 = (1 + 7 / 100 / 365) ^ (30 : ℤ) - 1
    ∧ daily_period_rate (7 / 100 / 365) 91 = (1 + 7 / 100 / 365) ^ (91 : ℤ) - 1
    ∧ (30 : ℤ) ∈ ([28, 29, 30, 31] : List ℤ)
    ∧ (common_rates (2 / 100)).lookup 30 = some ((1 + 2 / 100) ^ (30 : ℤ) - 1) :=
  ⟨c8_daily_rate_cache.1 7 30, c8_daily_rate_cache.1 7 91, by decide,
   c8_daily_rate_cache.2.1 (2 / 100) 30 (by decide)⟩

/-! ### C4: the balance recurrence behind the emitted records -/

/-- `ExactChain dec b recs` says the emitted records `recs` are the rounded
images of exact per-period values obeying the recurrences of spec §8: some
period rate `rt` and payment `p` with `interest = begin·rt` and
`ending = begin − (payment − interest)` exactly, consecutive beginning
balances chaining through the exact (unrounded) ending balances, starting
from `b`. -/
def ExactChain (dec : ℝ) : ℝ → List LoanPayment → Prop
  | _, [] => True
  | b, rec :: rest =>
      ∃ p it e rt : ℝ,
        it = b * rt ∧ e = b - (p - it)
        ∧ rec.pmt_amount = round p dec
        ∧ rec.pmt_interest_paid = round it dec
        ∧ rec.pmt_end_balance = round e dec
        ∧ ExactChain dec e rest

/-- Every run of the schedule loop satisfies the exact balance recurrence,
starting from the beginning balance its first iteration will use. -/
theorem exactChain_schedLoop (ps : PmtSchedule) (cper dr dec : ℝ) :
    ∀ (fuel : ℕ) (s : SchedState),
      ExactChain dec (stepBeginBalance s) (schedLoop ps cper dr dec fuel s)
  | 0, s => trivial
  | fuel + 1, s => by
      rw [schedLoop]
      by_cases hc : s.end_balance > 0 ∧ s.pmt_number < 500
      · rw [if_pos hc]
        have ih := exactChain_schedLoop ps cper dr dec fuel
          (schedStep ps cper dr dec s).1
        rw [show stepBeginBalance (schedStep ps cper dr dec s).1
            = (schedStep ps cper dr dec s).1.end_balance by
          rw [stepBeginBalance, schedStep_fst_pmt_number,
            if_neg (Nat.succ_ne_zero _)]] at ih
        refine ⟨(if s.pmt_amt ≤ stepBeginBalance s then s.pmt_amt
            else stepBeginBalance s + stepInterest ps cper dr s),
          stepInterest ps cper dr s,
          (if s.pmt_amt ≤ stepBeginBalance s then
            stepBeginBalance s - (s.pmt_amt - stepInterest ps cper dr s)
          else 0),
          stepRate ps cper dr s, rfl, ?_, rfl, rfl, rfl, ih⟩
        by_cases hle : s.pmt_amt ≤ stepBeginBalance s
        · rw [if_pos hle, if_pos hle]
        · rw [if_neg hle, if_neg hle]
          ring
      · rw [if_neg hc]
        trivial

/-- C4: the emitted schedule fields are the rounded images of exact values
satisfying `ending_i = beginning_i − (payment_i − interest_i)` with
`beginning_1 = principal`, `beginning_{i+1} = ending_i` and
`interest_i = beginning_i · rate_i`; and every rounded field sits within the
half-ulp rounding tolerance `1/2·10^−d` of its exact value. -/
theorem c4_balance_recurrence :
    (∀ (principal : ℝ) (loan_date first_pmt_date : NDate) (annual_rate : ℝ)
        (ps : PmtSchedule) (ct : Compounding) (dec pa : ℝ),
        ExactChain dec principal
          (add_scheduled_pmts principal loan_date first_pmt_date annual_rate
            ps ct dec pa))
    ∧ ∀ x d : ℝ, |round x d - x| ≤ 1 / 2 / (10 : ℝ) ^ d := by
  constructor
  · intro P ld fpd r ps ct dec pa
    have h := exactChain_schedLoop ps (get_compounding_periods ct)
      (r / 100 / get_compounding_periods ct) dec 500
      ⟨ld, fpd, P, 1, pa, 0,
        init_period_rate r (get_pmt_schedule ps) (get_compounding_periods ct)⟩
    rw [show stepBeginBalance ⟨ld, fpd, P, 1, pa, 0,
        init_period_rate r (get_pmt_schedule ps) (get_compounding_periods ct)⟩
      = P from rfl] at h
    exact h
  · exact abs_round_sub_le

/-! ### C5: the final resized payoff payment -/

/-- Holds of every record of the list except the last one. -/
def AllButLast (P : LoanPayment → Prop) : List LoanPayment → Prop
  | [] => True
  | [_] => True
  | r :: s :: t => P r ∧ AllButLast P (s :: t)

/-- Until the loop resizes (or exits), the `pmt_amt` in the state is the level
payment, so every record except the last carries its rounding. -/
theorem allButLast_schedLoop (ps : PmtSchedule) (cper dr dec lvl : ℝ) :
    ∀ (fuel : ℕ) (s : SchedState), s.pmt_amt = lvl →
      AllButLast (fun rec => rec.pmt_amount = round lvl dec)
        (schedLoop ps cper dr dec fuel s)
  | 0, s => fun _ => trivial
  | fuel + 1, s => by
      intro hs
      rw [schedLoop]
      by_cases hc : s.end_balance > 0 ∧ s.pmt_number < 500
      · rw [if_pos hc]
        rcases hrest : schedLoop ps cper dr dec fuel (schedStep ps cper dr dec s).1
          with - | ⟨x, xs⟩
        · trivial
        · show _ ∧ AllButLast _ (x :: xs)
          by_cases hle : s.pmt_amt ≤ stepBeginBalance s
          · constructor
            · show round (if s.pmt_amt ≤ stepBeginBalance s then s.pmt_amt
                  else stepBeginBalance s + stepInterest ps cper dr s) dec
                = round lvl dec
              rw [if_pos hle, hs]
            · rw [← hrest]
              refine allButLast_schedLoop ps cper dr dec lvl fuel _ ?_
              show (if s.pmt_amt ≤ stepBeginBalance s then s.pmt_amt
                  else stepBeginBalance s + stepInterest ps cper dr s) = lvl
              rw [if_pos hle, hs]
          · exfalso
            have hz : (schedStep ps cper dr dec s).1.end_balance = 0 := by
              show (if s.pmt_amt ≤ stepBeginBalance s then
                  stepBeginBalance s - (s.pmt_amt - stepInterest ps cper dr s)
                else 0) = 0
              rw [if_neg hle]
            rw [schedLoop_eq_nil ps cper dr dec fuel _ hz] at hrest
            exact List.cons_ne_nil x xs hrest.symm
      · rw [if_neg hc]
        trivial

/-- C5: whenever the (current) payment amount exceeds the beginning
balance, that iteration resizes the payment to exactly
`beginning_balance + interest`, emits an ending balance of exactly 0
(`round 0 = 0`), and drives the loop state to closing balance 0 so that no
further record is emitted — the resized record is the last one; and in every
schedule built by `Loan::new`, all records except the last carry exactly the
fixed level payment amount. -/
theorem c5_payoff_resize :
    (∀ (ps : PmtSchedule) (cper dr dec : ℝ) (s : SchedState),
        stepBeginBalance s < s.pmt_amt →
        (schedStep ps cper dr dec s).2.pmt_amount
            = round (stepBeginBalance s + stepInterest ps cper dr s) dec
          ∧ (schedStep ps cper dr dec s).2.pmt_end_balance = 0
          ∧ (schedStep ps cper dr dec s).1.end_balance = 0)
    ∧ (∀ (ps : PmtSchedule) (cper dr dec : ℝ) (fuel : ℕ) (s : SchedState),
        s.end_balance = 0 → schedLoop ps cper dr dec fuel s = [])
    ∧ ∀ (P t r : ℝ) (ps : PmtSchedule) (ct : Compounding) (ld fpd : NDate)
        (dp : ℝ),
        AllButLast
          (fun rec => rec.pmt_amount = (Loan.new P t r ps ct ld fpd dp).pmt_amount)
          (Loan.new P t r ps ct ld fpd dp).scheduled_pmts := by
  refine ⟨?_, ?_, ?_⟩
  · intro ps cper dr dec s h
    have hle : ¬ s.pmt_amt ≤ stepBeginBalance s := not_le.mpr h
    refine ⟨?_, ?_, ?_⟩
    · show round (if s.pmt_amt ≤ stepBeginBalance s then s.pmt_amt
          else stepBeginBalance s + stepInterest ps cper dr s) dec = _
      rw [if_neg hle]
    · show round (if s.pmt_amt ≤ stepBeginBalance s then
          stepBeginBalance s - (s.pmt_amt - stepInterest ps cper dr s)
        else 0) dec = 0
      rw [if_neg hle, round_zero]
    · show (if s.pmt_amt ≤ stepBeginBalance s then
          stepBeginBalance s - (s.pmt_amt - stepInterest ps cper dr s)
        else 0) = 0
      rw [if_neg hle]
  · exact schedLoop_eq_nil
  · intro P t r ps ct ld fpd dp
    have hpa : round (Loan.new P t r ps ct ld fpd dp).pmt_amount dp
        = (Loan.new P t r ps ct ld fpd dp).pmt_amount := by
      show round (get_pmt_amount P t r ps ct dp) dp = get_pmt_amount P t r ps ct dp
      rw [get_pmt_amount]
      exact round_round _ _
    have h := allButLast_schedLoop ps (get_compounding_periods ct)
      (r / 100 / get_compounding_periods ct) dp
      (get_pmt_amount P t r ps ct dp) 500
      ⟨ld, fpd, P, 1, get_pmt_amount P t r ps ct dp, 0,
        init_period_rate r (get_pmt_schedule ps) (get_compounding_periods ct)⟩
      rfl
    show AllButLast _ (add_scheduled_pmts P ld fpd r ps ct dp
      (get_pmt_amount P t r ps ct dp))
    simp only [show (Loan.new P t r ps ct ld fpd dp).pmt_amount
      = get_pmt_amount P t r ps ct dp from rfl] at hpa ⊢
    simp only [hpa] at h
    exact h

/-- A concrete loan date used by the witnesses below. -/
def wDate1 : NDate := ⟨2024, 3, 1⟩

/-- A concrete first payment date used by the witnesses below. -/
def wDate2 : NDate := ⟨2024, 4, 1⟩

/-- A concrete pre-first-iteration loop state whose payment amount (200)
exceeds its beginning balance (100). -/
def wState : SchedState := ⟨wDate1, wDate2, 100, 1, 200, 0, 0⟩

/-- A concrete loop state with closing balance 0. -/
def wStateDone : SchedState := ⟨wDate1, wDate2, 100, 0, 200, 1, 0⟩

/-- Witness for C5: a resize step at a concrete state, and loop exit at a
concrete retired state. -/
theorem c5_payoff_resize_witness :
    stepBeginBalance wState < wState.pmt_amt
    ∧ (schedStep .Monthly 12 0 2 wState).2.pmt_amount
        = round (stepBeginBalance wState + stepInterest .Monthly 12 0 wState) 2
    ∧ (schedStep .Monthly 12 0 2 wState).2.pmt_end_balance = 0
    ∧ (schedStep .Monthly 12 0 2 wState).1.end_balance = 0
    ∧ wStateDone.end_balance = 0
    ∧ schedLoop .Monthly 12 0 2 5 wStateDone = [] := by
  have hlt : stepBeginBalance wState < wState.pmt_amt := by
    show (100 : ℝ) < 200
    norm_num
  have h1 := c5_payoff_resize.1 .Monthly 12 0 2 wState hlt
  exact ⟨hlt, h1.1, h1.2.1, h1.2.2, rfl,
    c5_payoff_resize.2.1 .Monthly 12 0 2 5 wStateDone rfl⟩

/-! ### A fully evaluated one-payment loan (used for C1 and C2)

`Loan::new(100, 1/12, 7.0, Monthly, Monthly, 2024-03-01, 2024-04-01, 2)`:
the periodic rate is `7/1200`, the level payment rounds to `100.58`, which
exceeds the principal, so the very first period resizes and retires the
loan: the schedule is the single record
`(1, 2024-04-01, 100.58, 0.58, 0.00)`. -/

/-- Evaluate `round x 2` through the floor of `100·x + 1/2` (for `x ≥ 0`). -/
theorem round_two_eval (x : ℝ) (k : ℤ) (h0 : 0 ≤ x)
    (hk : ⌊x * 100 + 1 / 2⌋ = k) : round x 2 = (k : ℝ) / 100 := by
  rw [round_eq_spec_round, spec_round,
    show (10 : ℝ) ^ (2 : ℝ) = 100 by
      rw [show (2 : ℝ) = ((2 : ℕ) : ℝ) by norm_num, Real.rpow_natCast]
      norm_num,
    roundAway, if_pos (mul_nonneg h0 (by norm_num : (0 : ℝ) ≤ 100)), hk]

theorem L100_pmt_amount :
    get_pmt_amount 100 (1 / 12) 7 .Monthly .Monthly 2 = 10058 / 100 := by
  simp only [get_pmt_amount, get_compounding_periods, get_pmt_schedule]
  rw [show (12 : ℝ) / 12 = 1 by norm_num, Real.rpow_one,
    show (1 : ℝ) / 12 * 12 = 1 by norm_num, Real.rpow_one]
  rw [round_two_eval _ 10058 (by norm_num) (by norm_num)]
  norm_num

theorem L100_sched :
    add_scheduled_pmts 100 wDate1 wDate2 7 .Monthly .Monthly 2 (10058 / 100)
      = [⟨1, wDate2, 10058 / 100, 58 / 100, 0⟩] := by
  simp only [add_scheduled_pmts, get_compounding_periods, get_pmt_schedule]
  rw [show init_period_rate 7 12 12 = 7 / 100 / 12 by
    rw [init_period_rate]; norm_num]
  rw [show (500 : ℕ) = 499 + 1 from rfl, schedLoop, if_pos
    (⟨by norm_num, by norm_num⟩ :
      (⟨wDate1, wDate2, 100, 1, 10058 / 100, 0, 7 / 100 / 12⟩ :
        SchedState).end_balance > 0
      ∧ (⟨wDate1, wDate2, 100, 1, 10058 / 100, 0, 7 / 100 / 12⟩ :
        SchedState).pmt_number < 500)]
  have hb : stepBeginBalance
      ⟨wDate1, wDate2, 100, 1, 10058 / 100, 0, 7 / 100 / 12⟩ = 100 := rfl
  have hrt : stepRate .Monthly 12 (7 / 100 / 12)
      ⟨wDate1, wDate2, 100, 1, 10058 / 100, 0, 7 / 100 / 12⟩ = 7 / 100 / 12 := by
    rw [stepRate, if_neg (by norm_num : (12 : ℝ) ≠ 365)]
  have hit : stepInterest .Monthly 12 (7 / 100 / 12)
      ⟨wDate1, wDate2, 100, 1, 10058 / 100, 0, 7 / 100 / 12⟩ = 100 * (7 / 100 / 12) := by
    rw [stepInterest, hrt, hb]
  have hle : ¬ ((⟨wDate1, wDate2, 100, 1, 10058 / 100, 0, 7 / 100 / 12⟩ :
      SchedState).pmt_amt ≤ stepBeginBalance
        ⟨wDate1, wDate2, 100, 1, 10058 / 100, 0, 7 / 100 / 12⟩) := by
    rw [hb]
    show ¬ ((10058 : ℝ) / 100 ≤ 100)
    norm_num
  have hstep1 : (schedStep .Monthly 12 (7 / 100 / 12) 2
      ⟨wDate1, wDate2, 100, 1, 10058 / 100, 0, 7 / 100 / 12⟩).1.end_balance = 0 := by
    show (if _ ≤ _ then _ else (0 : ℝ)) = 0
    rw [if_neg hle]
  rw [schedLoop_eq_nil _ _ _ _ 499 _ hstep1]
  have hstep2 : (schedStep .Monthly 12 (7 / 100 / 12) 2
      ⟨wDate1, wDate2, 100, 1, 10058 / 100, 0, 7 / 100 / 12⟩).2
      = ⟨1, wDate2, 10058 / 100, 58 / 100, 0⟩ := by
    show LoanPayment.mk _ _ _ _ _ = _
    rw [if_neg hle, if_neg hle, hit, hb]
    congr 1
    · rw [round_two_eval _ 10058 (by norm_num) (by norm_num)]
      norm_num
    · rw [round_two_eval _ 58 (by norm_num) (by norm_num)]
      norm_num
    · rw [round_zero]
  rw [hstep2]

/-- The one-payment loan itself. -/
noncomputable def L100 : Loan :=
  Loan.new 100 (1 / 12) 7 .Monthly .Monthly wDate1 wDate2 2

theorem L100_scheduled_pmts :
    L100.scheduled_pmts = [⟨1, wDate2, 10058 / 100, 58 / 100, 0⟩] := by
  show add_scheduled_pmts 100 wDate1 wDate2 7 .Monthly .Monthly 2
      (get_pmt_amount 100 (1 / 12) 7 .Monthly .Monthly 2) = _
  rw [L100_pmt_amount, L100_sched]

theorem L100_count : L100.get_pmt_count = 1 := by
  rw [Loan.get_pmt_count, L100_scheduled_pmts]
  rfl

/-! ### C1: behaviour of out-of-range lookups -/

/-- C1 is refuted at index 0: on the one-payment loan `L100`,
`get_pmt_info(0)` aborts (the guard `0 <= count` passes and `0usize - 1`
underflows) instead of returning the no-information string, and
`get_pmt_detail(0)` returns `Some` of the first record instead of `None`.
For indices strictly above the count both functions do behave as claimed
(shown here at index 2). -/
theorem c1_out_of_range_lookup :
    L100.get_pmt_info 0 = .fatal
    ∧ L100.get_pmt_detail 0 = .ok (some ⟨1, wDate2, 10058 / 100, 58 / 100, 0⟩)
    ∧ L100.get_pmt_count = 1
    ∧ L100.get_pmt_info 2 = .ok .noInfo
    ∧ L100.get_pmt_detail 2 = .ok none := by
  refine ⟨?_, ?_, L100_count, ?_, ?_⟩
  · rw [Loan.get_pmt_info, if_pos (by rw [L100_count]; norm_num :
      (0 : ℕ) ≤ L100.get_pmt_count)]
    rfl
  · rw [Loan.get_pmt_detail, if_pos (by rw [L100_count]; norm_num :
      (0 : ℕ) ≤ L100.get_pmt_count), L100_scheduled_pmts]
    rfl
  · rw [Loan.get_pmt_info, if_neg (by rw [L100_count]; norm_num :
      ¬ (2 : ℕ) ≤ L100.get_pmt_count)]
  · rw [Loan.get_pmt_detail, if_neg (by rw [L100_count]; norm_num :
      ¬ (2 : ℕ) ≤ L100.get_pmt_count)]

/-! ### C2: behaviour of in-range `get_pmt_detail` -/

/-- C2 is refuted: `get_pmt_detail` indexes `scheduled_pmts[pmt_number]`
(0-based) under the guard `pmt_number <= count`, so the in-range index
`n = count` reads one past the end and aborts.  On the one-payment loan
`L100`, index 1 is in range (`1 ≤ count = 1`) yet the call aborts instead of
returning `Some` of the record numbered 1. -/
theorem c2_pmt_detail_off_by_one :
    L100.get_pmt_count = 1
    ∧ L100.get_pmt_detail 1 = .fatal := by
  refine ⟨L100_count, ?_⟩
  rw [Loan.get_pmt_detail, if_pos (by rw [L100_count] :
    (1 : ℕ) ≤ L100.get_pmt_count), L100_scheduled_pmts]
  rfl

/-! ### C10: construction is deterministic -/

/-- C10: constructing two `Loan`s from identical inputs yields identical
payment amounts, identical scheduled sequences, and in fact identical
loans — `Loan::new` is a pure function of its eight parameters, with no
hidden time-dependent state in the model. -/
theorem c10_deterministic_construction (P t r : ℝ) (ps : PmtSchedule)
    (ct : Compounding) (ld fpd : NDate) (dp : ℝ) (l1 l2 : Loan)
    (h1 : l1 = Loan.new P t r ps ct ld fpd dp)
    (h2 : l2 = Loan.new P t r ps ct ld fpd dp) :
    l1.pmt_amount = l2.pmt_amount
    ∧ l1.scheduled_pmts = l2.scheduled_pmts
    ∧ l1 = l2 := by
  subst h1
  subst h2
  exact ⟨rfl, rfl, rfl⟩

/-- Witness for C10 at concrete construction parameters. -/
theorem c10_deterministic_construction_witness :
    (Loan.new 100 1 7 .Monthly .Monthly wDate1 wDate2 2).pmt_amount
      = (Loan.new 100 1 7 .Monthly .Monthly wDate1 wDate2 2).pmt_amount
    ∧ (Loan.new 100 1 7 .Monthly .Monthly wDate1 wDate2 2).scheduled_pmts
      = (Loan.new 100 1 7 .Monthly .Monthly wDate1 wDate2 2).scheduled_pmts
    ∧ Loan.new 100 1 7 .Monthly .Monthly wDate1 wDate2 2
      = Loan.new 100 1 7 .Monthly .Monthly wDate1 wDate2 2 :=
  c10_deterministic_construction 100 1 7 .Monthly .Monthly wDate1 wDate2 2
    _ _ rfl rfl
